import Mathlib

/-!
Verification of the rolling statistics engine of the flash-bet repository
(src/app.py, function calcola_statistiche_squadra together with its inner
helper add_stat).

Modelling choices (shallow embedding):
* A pandas DataFrame becomes a `Dataset`: the list of column names that are
  present, plus a list of rows.  A row always carries the two team name
  fields (the loader rejects tables without them), an optional parsed date
  (NaT becomes `none`), an association list of numeric cells (a missing or
  NaN cell is `none`), and an optional FTR result code (NaN becomes `none`).
* float64 values are modelled as rationals; NaN propagation is modelled with
  `Option`: a mean over an empty set of non-null values is `none`, exactly
  where pandas produces NaN.
* `DataFrame.sort_values("Date", ascending=False)` is modelled by a
  deterministic comparison sort whose output satisfies the guarantees pandas
  documents for this call: the result is a permutation of the input, ordered
  descending by date with null dates after all valid dates
  (na_position is "last" by default).  The tie order among equal or null
  dates is not part of the model, since the source uses the default
  non-stable quicksort kind.
-/

namespace FlashBet

/-- One match row of the unified dataset (src/app.py line 102 onwards works
on such rows).  `cells` holds the numeric stat columns (FTHG, AS, ...) and
`ftr` the categorical FTR column; values absent from the row or NaN are
`none`. -/
structure Row where
  homeTeam : String
  awayTeam : String
  date : Option Int
  cells : List (String × Option ℚ)
  ftr : Option String
deriving DecidableEq, Repr

/-- Value of the numeric column `c` in row `r`; `none` when the cell is
missing or null. -/
def Row.val (r : Row) (c : String) : Option ℚ :=
  match r.cells.lookup c with
  | some v => v
  | none => none

/-- The unified dataset: the set of columns present in the DataFrame and its
rows in load order. -/
structure Dataset where
  cols : List String
  rows : List Row
deriving DecidableEq, Repr

/-- The ten add_stat calls of src/app.py lines 133-144, in source order:
display label, home column, away column. -/
def statTable : List (String × String × String) :=
  [("Gol fatti (FT)", "FTHG", "FTAG"),
   ("Gol subiti (FT)", "FTAG", "FTHG"),
   ("Gol fatti (HT)", "HTHG", "HTAG"),
   ("Gol subiti (HT)", "HTAG", "HTHG"),
   ("Tiri totali", "HS", "AS"),
   ("Tiri in porta", "HST", "AST"),
   ("Calci d\x27angolo", "HC", "AC"),
   ("Falli commessi", "HF", "AF"),
   ("Ammonizioni", "HY", "AY"),
   ("Espulsioni", "HR", "AR")]

/-- Comparison used to order by recency: `dateGE a b` holds when a row dated
`a` may come no later than a row dated `b` in the descending order, with
null dates after every valid date. -/
def dateGE (a b : Option Int) : Bool :=
  match a, b with
  | some x, some y => decide (y ≤ x)
  | some _, none => true
  | none, some _ => false
  | none, none => true

/-- Row-level recency order: at least as recent (null dates last). -/
def recentGE (a b : Row) : Prop := dateGE a.date b.date = true

instance : DecidableRel recentGE := fun a b =>
  inferInstanceAs (Decidable (dateGE a.date b.date = true))

lemma dateGE_total (a b : Option Int) : dateGE a b = true ∨ dateGE b a = true := by
  unfold dateGE
  rcases a with _ | x <;> rcases b with _ | y <;> simp
  omega

lemma dateGE_trans (a b c : Option Int) (hab : dateGE a b = true)
    (hbc : dateGE b c = true) : dateGE a c = true := by
  unfold dateGE at *
  rcases a with _ | x <;> rcases b with _ | y <;> rcases c with _ | z <;>
    simp_all
  omega

instance : IsTotal Row recentGE :=
  ⟨fun a b => dateGE_total a.date b.date⟩

instance : IsTrans Row recentGE :=
  ⟨fun _ _ _ hab hbc => dateGE_trans _ _ _ hab hbc⟩

/-- Filter step, src/app.py line 102: the rows where the team plays home or
away, in dataset order. -/
def team_matches (d : Dataset) (team : String) : List Row :=
  d.rows.filter (fun r => r.homeTeam == team || r.awayTeam == team)

/-- Ordering step, src/app.py lines 108-109: when a Date column exists, sort
descending by date (null dates last); otherwise keep load order. -/
def orderedRows (d : Dataset) (team : String) : List Row :=
  if "Date" ∈ d.cols then List.insertionSort recentGE (team_matches d team)
  else team_matches d team

/-- Truncation step, src/app.py line 112: keep at most the first `n` rows. -/
def selectedRows (d : Dataset) (team : String) (n : Nat) : List Row :=
  (orderedRows d team).take n

/-- Per-row team-perspective value of a symmetric stat pair, src/app.py
lines 122-128: the away-mask assignment runs after the home-mask assignment,
so when the team is both home and away the away column wins; a row where the
team plays neither side keeps the NaN initial value. -/
def perspVal (team homeCol awayCol : String) (r : Row) : Option ℚ :=
  if r.awayTeam = team then r.val awayCol
  else if r.homeTeam = team then r.val homeCol
  else none

/-- pandas Series.mean with default skipna: the arithmetic mean of the
non-null values, `none` (NaN) when every value is null. -/
def meanSkipNA (vals : List (Option ℚ)) : Option ℚ :=
  let xs := vals.filterMap id
  if xs.isEmpty then none else some (xs.sum / xs.length)

/-- The add_stat loop of src/app.py lines 118-130 run over a table of
symmetric pairs: an entry is produced only when both columns are present in
the dataset, and its value is the skip-NaN mean of the per-row perspective
values over the selected rows. -/
def symStatsAux (cols : List String) (team : String) (sel : List Row) :
    List (String × String × String) → List (String × Option ℚ)
  | [] => []
  | e :: es =>
    if e.2.1 ∈ cols ∧ e.2.2 ∈ cols then
      (e.1, meanSkipNA (sel.map (perspVal team e.2.1 e.2.2))) ::
        symStatsAux cols team sel es
    else symStatsAux cols team sel es

/-- The symmetric-stat part of the stats mapping (the ten add_stat calls of
src/app.py lines 133-144). -/
def symStats (d : Dataset) (team : String) (n : Nat) :
    List (String × Option ℚ) :=
  symStatsAux d.cols team (selectedRows d team n) statTable

/-- Result labeling, src/app.py lines 149-164: translate the FTR code to the
team outcome; the home branch is taken whenever HomeTeam equals the team,
and any code other than H and A (including a null) counts as a draw. -/
def outcome (team : String) (r : Row) : String :=
  if r.homeTeam = team then
    if r.ftr = some "H" then "W" else if r.ftr = some "A" then "L" else "D"
  else
    if r.ftr = some "A" then "W" else if r.ftr = some "H" then "L" else "D"

/-- Win, draw and loss counts, src/app.py lines 147-168: produced only when
the FTR column is present; exact integer counts over the selected rows. -/
def wdlStats (d : Dataset) (team : String) (n : Nat) :
    List (String × Option ℚ) :=
  if "FTR" ∈ d.cols then
    [("Vittorie", some (((selectedRows d team n).map (outcome team)).count "W" : ℚ)),
     ("Pareggi", some (((selectedRows d team n).map (outcome team)).count "D" : ℚ)),
     ("Sconfitte", some (((selectedRows d team n).map (outcome team)).count "L" : ℚ))]
  else []

/-- The engine, src/app.py lines 92-176 (calcola_statistiche_squadra):
returns the selected match rows together with the stats mapping, or `none`
in place of the mapping when the team has no row or no stat was computed. -/
def calcola_statistiche_squadra (d : Dataset) (team : String) (n : Nat) :
    List Row × Option (List (String × Option ℚ)) :=
  if team_matches d team = [] then ([], none)
  else if symStats d team n ++ wdlStats d team n = [] then
    (selectedRows d team n, none)
  else
    (selectedRows d team n, some (symStats d team n ++ wdlStats d team n))

/-- Name used by the specification for the engine contract. -/
def computeStats (d : Dataset) (team : String) (n : Nat) :
    List Row × Option (List (String × Option ℚ)) :=
  calcola_statistiche_squadra d team n

/-! ### General lemmas about the engine pieces -/

lemma mem_team_matches {d : Dataset} {team : String} {r : Row}
    (h : r ∈ team_matches d team) : r.homeTeam = team ∨ r.awayTeam = team := by
  unfold team_matches at h
  rw [List.mem_filter] at h
  simpa using h.2

lemma orderedRows_perm (d : Dataset) (team : String) :
    (orderedRows d team).Perm (team_matches d team) := by
  unfold orderedRows
  split
  · exact List.perm_insertionSort recentGE _
  · exact List.Perm.refl _

lemma length_orderedRows (d : Dataset) (team : String) :
    (orderedRows d team).length = (team_matches d team).length :=
  (orderedRows_perm d team).length_eq

lemma mem_selectedRows {d : Dataset} {team : String} {n : Nat} {r : Row}
    (h : r ∈ selectedRows d team n) : r ∈ team_matches d team := by
  unfold selectedRows at h
  exact (orderedRows_perm d team).mem_iff.mp (List.take_subset n _ h)

lemma computeStats_fst (d : Dataset) (team : String) (n : Nat) :
    (computeStats d team n).1 = selectedRows d team n := by
  unfold computeStats calcola_statistiche_squadra
  split
  · rename_i h
    unfold selectedRows orderedRows
    rw [h]
    split <;> simp
  · split <;> rfl

lemma computeStats_snd {d : Dataset} {team : String} {n : Nat}
    (hne : team_matches d team ≠ [])
    (hs : symStats d team n ++ wdlStats d team n ≠ []) :
    (computeStats d team n).2 =
      some (symStats d team n ++ wdlStats d team n) := by
  unfold computeStats calcola_statistiche_squadra
  rw [if_neg hne, if_neg hs]

lemma computeStats_snd_eq {d : Dataset} {team : String} {n : Nat}
    {m : List (String × Option ℚ)}
    (hm : (computeStats d team n).2 = some m) :
    m = symStats d team n ++ wdlStats d team n := by
  unfold computeStats calcola_statistiche_squadra at hm
  by_cases h1 : team_matches d team = []
  · rw [if_pos h1] at hm
    cases hm
  · rw [if_neg h1] at hm
    by_cases h2 : symStats d team n ++ wdlStats d team n = []
    · rw [if_pos h2] at hm
      cases hm
    · rw [if_neg h2] at hm
      exact (Option.some.inj hm).symm

lemma lookup_append_right {β : Type} {l₁ l₂ : List (String × β)} {a : String}
    (h : ∀ p ∈ l₁, p.1 ≠ a) : (l₁ ++ l₂).lookup a = l₂.lookup a := by
  induction l₁ with
  | nil => rfl
  | cons p l ih =>
    obtain ⟨k, v⟩ := p
    have hk : (a == k) = false :=
      beq_eq_false_iff_ne.mpr (Ne.symm (h (k, v) (List.mem_cons_self _ _)))
    simpa [List.lookup, hk] using ih (fun q hq => h q (List.mem_cons_of_mem _ hq))

lemma lookup_append_left {β : Type} {l₁ l₂ : List (String × β)} {a : String}
    {v : β} (h : l₁.lookup a = some v) : (l₁ ++ l₂).lookup a = some v := by
  induction l₁ with
  | nil => cases h
  | cons p l ih =>
    obtain ⟨k, w⟩ := p
    by_cases hk : (a == k) = true
    · simp only [List.lookup, hk] at h ⊢
      exact h
    · rw [Bool.not_eq_true] at hk
      simp only [List.lookup, hk] at h ⊢
      exact ih h

lemma statTable_key_inj : ∀ e₁ ∈ statTable, ∀ e₂ ∈ statTable,
    e₁.1 = e₂.1 → e₁ = e₂ := by decide

lemma statTable_keys_ne_wdl : ∀ e ∈ statTable,
    e.1 ≠ "Vittorie" ∧ e.1 ≠ "Pareggi" ∧ e.1 ≠ "Sconfitte" := by decide

lemma statTable_keys_nodup : (statTable.map Prod.fst).Nodup := by decide

lemma mem_symStatsAux {cols : List String} {team : String} {sel : List Row}
    {p : String × Option ℚ} :
    ∀ {table : List (String × String × String)},
      p ∈ symStatsAux cols team sel table →
      ∃ e ∈ table, e.2.1 ∈ cols ∧ e.2.2 ∈ cols ∧
        p = (e.1, meanSkipNA (sel.map (perspVal team e.2.1 e.2.2))) := by
  intro table
  induction table with
  | nil =>
    intro h
    cases h
  | cons e es ih =>
    intro h
    rw [symStatsAux] at h
    by_cases hc : e.2.1 ∈ cols ∧ e.2.2 ∈ cols
    · rw [if_pos hc] at h
      rcases List.mem_cons.mp h with he | he
      · exact ⟨e, List.mem_cons_self e es, hc.1, hc.2, he⟩
      · obtain ⟨f, hf, hprops⟩ := ih he
        exact ⟨f, List.mem_cons_of_mem e hf, hprops⟩
    · rw [if_neg hc] at h
      obtain ⟨f, hf, hprops⟩ := ih h
      exact ⟨f, List.mem_cons_of_mem e hf, hprops⟩

lemma symStatsAux_mem {cols : List String} {team : String} {sel : List Row}
    {name hc ac : String} :
    ∀ {table : List (String × String × String)},
      (name, hc, ac) ∈ table → hc ∈ cols → ac ∈ cols →
      (name, meanSkipNA (sel.map (perspVal team hc ac))) ∈
        symStatsAux cols team sel table := by
  intro table
  induction table with
  | nil =>
    intro ht
    cases ht
  | cons e es ih =>
    intro ht h1 h2
    rw [symStatsAux]
    rcases List.mem_cons.mp ht with he | he
    · subst he
      rw [if_pos ⟨h1, h2⟩]
      exact List.mem_cons_self _ _
    · by_cases hc : e.2.1 ∈ cols ∧ e.2.2 ∈ cols
      · rw [if_pos hc]
        exact List.mem_cons_of_mem _ (ih he h1 h2)
      · rw [if_neg hc]
        exact ih he h1 h2

lemma lookup_symStatsAux {cols : List String} {team : String} {sel : List Row} :
    ∀ {table : List (String × String × String)},
      (table.map Prod.fst).Nodup →
      ∀ {name hc ac : String}, (name, hc, ac) ∈ table →
      hc ∈ cols → ac ∈ cols →
      (symStatsAux cols team sel table).lookup name =
        some (meanSkipNA (sel.map (perspVal team hc ac))) := by
  intro table
  induction table with
  | nil =>
    intro _ name hc ac ht
    cases ht
  | cons e es ih =>
    intro hnd name hc ac ht h1 h2
    rw [symStatsAux]
    rcases List.mem_cons.mp ht with he | he
    · subst he
      rw [if_pos ⟨h1, h2⟩]
      simp [List.lookup]
    · have hname : name ∈ es.map Prod.fst :=
        List.mem_map.mpr ⟨(name, hc, ac), he, rfl⟩
      have hne : e.1 ≠ name := by
        intro hcontra
        exact (List.nodup_cons.mp hnd).1 (hcontra ▸ hname)
      have hrest := ih (List.nodup_cons.mp hnd).2 he h1 h2
      have hb : (name == e.1) = false := beq_eq_false_iff_ne.mpr (Ne.symm hne)
      split
      · simpa [List.lookup, hb] using hrest
      · exact hrest

lemma outcome_cases (team : String) (r : Row) :
    outcome team r = "W" ∨ outcome team r = "D" ∨ outcome team r = "L" := by
  unfold outcome
  split_ifs <;> simp

lemma count_outcomes (l : List String)
    (h : ∀ x ∈ l, x = "W" ∨ x = "D" ∨ x = "L") :
    l.count "W" + l.count "D" + l.count "L" = l.length := by
  induction l with
  | nil => rfl
  | cons a l ih =>
    have ih' := ih (fun x hx => h x (List.mem_cons_of_mem a hx))
    rcases h a (List.mem_cons_self a l) with rfl | rfl | rfl
    · rw [List.count_cons_self, List.count_cons_of_ne (by decide),
        List.count_cons_of_ne (by decide), List.length_cons]
      omega
    · rw [List.count_cons_of_ne (by decide), List.count_cons_self,
        List.count_cons_of_ne (by decide), List.length_cons]
      omega
    · rw [List.count_cons_of_ne (by decide), List.count_cons_of_ne (by decide),
        List.count_cons_self, List.length_cons]
      omega

/-! ### Claim theorems -/

/-- Claim C1: for every selected match row that carries an FTR code, the
result translates to the team outcome exactly as the source branches do:
when the team is the HomeTeam of the row, H is a win, A a loss and anything
else a draw; when the team is not the HomeTeam (so, the row being selected,
it is the AwayTeam), A is a win, H a loss and anything else a draw. -/
theorem C1_result_translation (d : Dataset) (team : String) (n : Nat)
    (r : Row) (hr : r ∈ selectedRows d team n) (c : String)
    (hc : r.ftr = some c) :
    (r.homeTeam = team →
      outcome team r =
        if c = "H" then "W" else if c = "A" then "L" else "D") ∧
    (r.homeTeam ≠ team →
      r.awayTeam = team ∧
      outcome team r =
        if c = "A" then "W" else if c = "H" then "L" else "D") := by
  have hmem : r.homeTeam = team ∨ r.awayTeam = team :=
    mem_team_matches (mem_selectedRows hr)
  constructor
  · intro hh
    simp only [outcome, if_pos hh, hc, Option.some.injEq]
  · intro hh
    refine ⟨hmem.resolve_left hh, ?_⟩
    simp only [outcome, if_neg hh, hc, Option.some.injEq]

/-- Witness for C1 at a concrete one-row dataset. -/
def w1Row : Row := ⟨"A", "B", none, [], some "H"⟩

def w1D : Dataset := ⟨["HomeTeam", "AwayTeam", "FTR"], [w1Row]⟩

theorem C1_result_translation_witness :
    w1Row ∈ selectedRows w1D "A" 5 ∧ w1Row.ftr = some "H" ∧
    ((w1Row.homeTeam = "A" →
      outcome "A" w1Row =
        if "H" = "H" then "W" else if "H" = "A" then "L" else "D") ∧
     (w1Row.homeTeam ≠ "A" →
      w1Row.awayTeam = "A" ∧
      outcome "A" w1Row =
        if "H" = "A" then "W" else if "H" = "H" then "L" else "D")) :=
  ⟨by decide, by decide,
    C1_result_translation w1D "A" 5 w1Row (by decide) "H" (by decide)⟩

/-- Claim C2: a team with no matching row yields the empty match list and a
null stats result, with no error (the function is total and the early
return of src/app.py lines 104-105 fires). -/
theorem C2_no_data_for_team (d : Dataset) (team : String) (n : Nat)
    (h : ∀ r ∈ d.rows, r.homeTeam ≠ team ∧ r.awayTeam ≠ team) :
    computeStats d team n = ([], none) := by
  have hnil : team_matches d team = [] := by
    unfold team_matches
    rw [List.filter_eq_nil_iff]
    intro r hr
    simp [(h r hr).1, (h r hr).2]
  unfold computeStats calcola_statistiche_squadra
  rw [if_pos hnil]

/-- Witness for C2: a dataset whose only row involves neither side of the
queried team. -/
def w2D : Dataset :=
  ⟨["HomeTeam", "AwayTeam"], [⟨"A", "B", none, [], none⟩]⟩

theorem C2_no_data_for_team_witness :
    (∀ r ∈ w2D.rows, r.homeTeam ≠ "C" ∧ r.awayTeam ≠ "C") ∧
    computeStats w2D "C" 3 = ([], none) :=
  ⟨by decide, C2_no_data_for_team w2D "C" 3 (by decide)⟩

/-- Dataset for the C3 counterexample: both goal columns exist, the only
selected row has null values in both. -/
def c3Row : Row := ⟨"A", "B", none, [("FTHG", none), ("FTAG", none)], none⟩

def c3D : Dataset := ⟨["HomeTeam", "AwayTeam", "FTHG", "FTAG"], [c3Row]⟩

/-- Claim C3 counterexample: with both columns of the pair present but every
selected value null, the stat is NOT omitted from the mapping; the source
still executes stats[name] = vals.mean() and stores a null (NaN) value, so
an entry for the stat appears. -/
theorem C3_all_null_entry_present :
    (∀ v ∈ (selectedRows c3D "A" 5).map (perspVal "A" "FTHG" "FTAG"),
      v = none) ∧
    (computeStats c3D "A" 5).2 =
      some [("Gol fatti (FT)", none), ("Gol subiti (FT)", none)] ∧
    ((computeStats c3D "A" 5).2.getD []).lookup "Gol fatti (FT)" =
      some none := by
  decide

/-- Claim C3 as amended: for a symmetric pair whose two columns are present
(and a team with at least one row), the mapping entry for the stat is the
arithmetic mean over exactly the selected rows with a non-null
team-perspective value; when every such value is null the entry still
appears, carrying a null value, rather than being omitted. -/
theorem C3_stat_mean_amended (d : Dataset) (team : String) (n : Nat)
    (name hc ac : String) (ht : (name, hc, ac) ∈ statTable)
    (h1 : hc ∈ d.cols) (h2 : ac ∈ d.cols)
    (hne : team_matches d team ≠ []) :
    ∃ m, (computeStats d team n).2 = some m ∧
      (((selectedRows d team n).map (perspVal team hc ac)).filterMap id ≠ [] →
        m.lookup name = some (some
          ((((selectedRows d team n).map (perspVal team hc ac)).filterMap id).sum /
           ((((selectedRows d team n).map (perspVal team hc ac)).filterMap id).length : ℚ)))) ∧
      (((selectedRows d team n).map (perspVal team hc ac)).filterMap id = [] →
        m.lookup name = some none) := by
  have hlk : (symStats d team n).lookup name =
      some (meanSkipNA ((selectedRows d team n).map (perspVal team hc ac))) := by
    unfold symStats
    exact lookup_symStatsAux statTable_keys_nodup ht h1 h2
  have happ : (symStats d team n ++ wdlStats d team n).lookup name =
      some (meanSkipNA ((selectedRows d team n).map (perspVal team hc ac))) :=
    lookup_append_left hlk
  have hsne : symStats d team n ++ wdlStats d team n ≠ [] := by
    intro h0
    rw [h0] at happ
    cases happ
  refine ⟨symStats d team n ++ wdlStats d team n,
    computeStats_snd hne hsne, ?_, ?_⟩
  · intro hvs
    rw [happ]
    unfold meanSkipNA
    rw [if_neg (by simpa using hvs)]
  · intro hvs
    rw [happ]
    unfold meanSkipNA
    rw [if_pos (by rw [hvs]; rfl)]

/-- Witness for the amended C3 at a one-row dataset with non-null goals. -/
def w3Row : Row :=
  ⟨"A", "B", none, [("FTHG", some 2), ("FTAG", some 1)], none⟩

def w3D : Dataset := ⟨["HomeTeam", "AwayTeam", "FTHG", "FTAG"], [w3Row]⟩

theorem C3_stat_mean_amended_witness :
    ("Gol fatti (FT)", "FTHG", "FTAG") ∈ statTable ∧
    "FTHG" ∈ w3D.cols ∧ "FTAG" ∈ w3D.cols ∧
    team_matches w3D "A" ≠ [] ∧
    (∃ m, (computeStats w3D "A" 4).2 = some m ∧
      (((selectedRows w3D "A" 4).map (perspVal "A" "FTHG" "FTAG")).filterMap id ≠ [] →
        m.lookup "Gol fatti (FT)" = some (some
          ((((selectedRows w3D "A" 4).map (perspVal "A" "FTHG" "FTAG")).filterMap id).sum /
           ((((selectedRows w3D "A" 4).map (perspVal "A" "FTHG" "FTAG")).filterMap id).length : ℚ)))) ∧
      (((selectedRows w3D "A" 4).map (perspVal "A" "FTHG" "FTAG")).filterMap id = [] →
        m.lookup "Gol fatti (FT)" = some none)) :=
  ⟨by decide, by decide, by decide, by decide,
    C3_stat_mean_amended w3D "A" 4 "Gol fatti (FT)" "FTHG" "FTAG"
      (by decide) (by decide) (by decide) (by decide)⟩

/-- Claim C5: once the window covers all of the team matches, the effective
sample size is the team match count and the result no longer depends on the
window size. -/
theorem C5_window_saturation (d : Dataset) (team : String) (n1 n2 : Nat)
    (_hp : team_matches d team ≠ [])
    (h1 : (team_matches d team).length ≤ n1)
    (h2 : (team_matches d team).length ≤ n2) :
    (computeStats d team n1).1.length = (team_matches d team).length ∧
    computeStats d team n1 = computeStats d team n2 := by
  have hsel : ∀ k : Nat, (team_matches d team).length ≤ k →
      selectedRows d team k = orderedRows d team := by
    intro k hk
    unfold selectedRows
    exact List.take_of_length_le (by rw [length_orderedRows]; exact hk)
  have e1 := hsel n1 h1
  have e2 := hsel n2 h2
  constructor
  · rw [computeStats_fst, e1, length_orderedRows]
  · have hsy : symStats d team n1 = symStats d team n2 := by
      unfold symStats
      rw [e1, e2]
    have hwd : wdlStats d team n1 = wdlStats d team n2 := by
      unfold wdlStats
      rw [e1, e2]
    unfold computeStats calcola_statistiche_squadra
    rw [hsy, hwd, e1, e2]

/-- Witness for C5: a team with two matches, windows 2 and 9. -/
def w5D : Dataset :=
  ⟨["HomeTeam", "AwayTeam"],
   [⟨"A", "B", none, [], none⟩, ⟨"C", "A", none, [], none⟩]⟩

theorem C5_window_saturation_witness :
    team_matches w5D "A" ≠ [] ∧
    (team_matches w5D "A").length ≤ 2 ∧
    (team_matches w5D "A").length ≤ 9 ∧
    ((computeStats w5D "A" 2).1.length = (team_matches w5D "A").length ∧
     computeStats w5D "A" 2 = computeStats w5D "A" 9) :=
  ⟨by decide, by decide, by decide,
    C5_window_saturation w5D "A" 2 9 (by decide) (by decide) (by decide)⟩

/-- Claim C6: the stats mapping has an entry for a symmetric stat pair
exactly when both its home and its away column are present in the dataset;
a pair with a missing column is absent while the rest of the computation
still succeeds. -/
theorem C6_column_pair_gate (d : Dataset) (team : String) (n : Nat)
    (name hc ac : String) (m : List (String × Option ℚ))
    (ht : (name, hc, ac) ∈ statTable)
    (hm : (computeStats d team n).2 = some m) :
    (∃ v, (name, v) ∈ m) ↔ (hc ∈ d.cols ∧ ac ∈ d.cols) := by
  have hmeq := computeStats_snd_eq hm
  subst hmeq
  constructor
  · rintro ⟨v, hv⟩
    rcases List.mem_append.mp hv with hv | hv
    · obtain ⟨e, he, he1, he2, hpe⟩ := mem_symStatsAux (by
        unfold symStats at hv
        exact hv)
      have hkey : e.1 = name := (congrArg Prod.fst hpe).symm
      have hee : e = (name, hc, ac) :=
        statTable_key_inj e he (name, hc, ac) ht (by rw [hkey])
      rw [hee] at he1 he2
      exact ⟨he1, he2⟩
    · exfalso
      have hwdl := statTable_keys_ne_wdl (name, hc, ac) ht
      unfold wdlStats at hv
      by_cases hf : "FTR" ∈ d.cols
      · rw [if_pos hf] at hv
        simp only [List.mem_cons, List.not_mem_nil, or_false] at hv
        rcases hv with h | h | h
        · exact hwdl.1 (congrArg Prod.fst h)
        · exact hwdl.2.1 (congrArg Prod.fst h)
        · exact hwdl.2.2 (congrArg Prod.fst h)
      · rw [if_neg hf] at hv
        cases hv
  · rintro ⟨hcc, hac⟩
    refine ⟨meanSkipNA ((selectedRows d team n).map (perspVal team hc ac)),
      List.mem_append_left _ ?_⟩
    unfold symStats
    exact symStatsAux_mem ht hcc hac

/-- Witness for C6: goal columns present, no ordinary stat values needed. -/
def w6D : Dataset :=
  ⟨["HomeTeam", "AwayTeam", "FTHG", "FTAG"], [⟨"A", "B", none, [], none⟩]⟩

theorem C6_column_pair_gate_witness :
    ("Gol fatti (FT)", "FTHG", "FTAG") ∈ statTable ∧
    (computeStats w6D "A" 5).2 =
      some [("Gol fatti (FT)", none), ("Gol subiti (FT)", none)] ∧
    ((∃ v, ("Gol fatti (FT)", v) ∈
        [(("Gol fatti (FT)" : String), (none : Option ℚ)),
         ("Gol subiti (FT)", none)]) ↔
      ("FTHG" ∈ w6D.cols ∧ "FTAG" ∈ w6D.cols)) :=
  ⟨by decide, by decide,
    C6_column_pair_gate w6D "A" 5 "Gol fatti (FT)" "FTHG" "FTAG"
      [("Gol fatti (FT)", none), ("Gol subiti (FT)", none)]
      (by decide) (by decide)⟩

/-- Claim C7: when the FTR column is present and the team has rows, the
stats mapping carries exact integer win, draw and loss counts whose sum is
the number of selected rows. -/
theorem C7_wdl_sum (d : Dataset) (team : String) (n : Nat)
    (hftr : "FTR" ∈ d.cols) (hne : team_matches d team ≠ []) :
    ∃ (m : List (String × Option ℚ)) (w p s : Nat),
      (computeStats d team n).2 = some m ∧
      m.lookup "Vittorie" = some (some (w : ℚ)) ∧
      m.lookup "Pareggi" = some (some (p : ℚ)) ∧
      m.lookup "Sconfitte" = some (some (s : ℚ)) ∧
      w + p + s = (computeStats d team n).1.length := by
  have hwdl : wdlStats d team n =
      [("Vittorie",
        some ((((selectedRows d team n).map (outcome team)).count "W" : ℚ))),
       ("Pareggi",
        some ((((selectedRows d team n).map (outcome team)).count "D" : ℚ))),
       ("Sconfitte",
        some ((((selectedRows d team n).map (outcome team)).count "L" : ℚ)))] := by
    unfold wdlStats
    rw [if_pos hftr]
  have hsne : symStats d team n ++ wdlStats d team n ≠ [] := by
    intro h0
    have h2 := (List.append_eq_nil.mp h0).2
    rw [hwdl] at h2
    cases h2
  have hsymne : ∀ q ∈ symStats d team n,
      q.1 ≠ "Vittorie" ∧ q.1 ≠ "Pareggi" ∧ q.1 ≠ "Sconfitte" := by
    intro q hq
    obtain ⟨e, he, _, _, hpe⟩ := mem_symStatsAux (by
      unfold symStats at hq
      exact hq)
    have hkeys := statTable_keys_ne_wdl e he
    rw [hpe]
    exact hkeys
  refine ⟨symStats d team n ++ wdlStats d team n,
    ((selectedRows d team n).map (outcome team)).count "W",
    ((selectedRows d team n).map (outcome team)).count "D",
    ((selectedRows d team n).map (outcome team)).count "L",
    computeStats_snd hne hsne, ?_, ?_, ?_, ?_⟩
  · rw [lookup_append_right (fun q hq => (hsymne q hq).1), hwdl]
    rfl
  · rw [lookup_append_right (fun q hq => (hsymne q hq).2.1), hwdl]
    rfl
  · rw [lookup_append_right (fun q hq => (hsymne q hq).2.2), hwdl]
    rfl
  · rw [computeStats_fst]
    have hall : ∀ x ∈ (selectedRows d team n).map (outcome team),
        x = "W" ∨ x = "D" ∨ x = "L" := by
      intro x hx
      obtain ⟨r, _, rfl⟩ := List.mem_map.mp hx
      exact outcome_cases team r
    have hcount := count_outcomes _ hall
    rw [List.length_map] at hcount
    exact hcount

/-- Witness for C7: two rows with FTR, one home win and one away draw. -/
def w7D : Dataset :=
  ⟨["HomeTeam", "AwayTeam", "FTR"],
   [⟨"A", "B", none, [], some "H"⟩, ⟨"C", "A", none, [], some "D"⟩]⟩

theorem C7_wdl_sum_witness :
    "FTR" ∈ w7D.cols ∧ team_matches w7D "A" ≠ [] ∧
    (∃ (m : List (String × Option ℚ)) (w p s : Nat),
      (computeStats w7D "A" 5).2 = some m ∧
      m.lookup "Vittorie" = some (some (w : ℚ)) ∧
      m.lookup "Pareggi" = some (some (p : ℚ)) ∧
      m.lookup "Sconfitte" = some (some (s : ℚ)) ∧
      w + p + s = (computeStats w7D "A" 5).1.length) :=
  ⟨by decide, by decide, C7_wdl_sum w7D "A" 5 (by decide) (by decide)⟩

/-- Claim C8: with a Date column the selected rows are ordered by the
recency relation (descending valid dates first, null dates after every
valid date), they are an initial segment of a sorted permutation of the
team rows,
and the recency relation indeed never lets a null-dated row precede a dated
one. -/
theorem C8_date_ordering (d : Dataset) (team : String) (n : Nat)
    (hdate : "Date" ∈ d.cols) :
    List.Pairwise recentGE (computeStats d team n).1 ∧
    (orderedRows d team).Perm (team_matches d team) ∧
    (computeStats d team n).1 = (orderedRows d team).take n ∧
    (∀ a b : Row, recentGE a b →
      (a.date = none → b.date = none) ∧
      (∀ x y : Int, a.date = some x → b.date = some y → y ≤ x)) := by
  have hfst : (computeStats d team n).1 = (orderedRows d team).take n :=
    computeStats_fst d team n
  have hsorted : List.Pairwise recentGE (orderedRows d team) := by
    unfold orderedRows
    rw [if_pos hdate]
    exact List.sorted_insertionSort recentGE _
  refine ⟨?_, orderedRows_perm d team, hfst, ?_⟩
  · rw [hfst]
    exact hsorted.sublist (List.take_sublist n _)
  · intro a b hab
    unfold recentGE at hab
    constructor
    · intro han
      rw [han] at hab
      rcases hb : b.date with _ | y
      · rfl
      · rw [hb] at hab
        simp [dateGE] at hab
    · intro x y hax hby
      rw [hax, hby] at hab
      simpa [dateGE] using hab

/-- Witness for C8: three rows for the team, one of them undated. -/
def w8D : Dataset :=
  ⟨["HomeTeam", "AwayTeam", "Date"],
   [⟨"A", "B", some 5, [], none⟩, ⟨"A", "C", none, [], none⟩,
    ⟨"D", "A", some 9, [], none⟩]⟩

theorem C8_date_ordering_witness :
    "Date" ∈ w8D.cols ∧
    (List.Pairwise recentGE (computeStats w8D "A" 2).1 ∧
     (orderedRows w8D "A").Perm (team_matches w8D "A") ∧
     (computeStats w8D "A" 2).1 = (orderedRows w8D "A").take 2 ∧
     (∀ a b : Row, recentGE a b →
       (a.date = none → b.date = none) ∧
       (∀ x y : Int, a.date = some x → b.date = some y → y ≤ x))) :=
  ⟨by decide, C8_date_ordering w8D "A" 2 (by decide)⟩

/-- Claim C9: on a shared row with distinct teams, the per-row value the
home team A contributes to its goals-scored stat (home column FTHG of the
pair registered under the label for goals scored) is the very value the
away team B contributes to its goals-conceded stat (away column FTHG of the
pair registered under the label for goals conceded). -/
theorem C9_perspective_symmetry (r : Row) (A B : String)
    (hA : r.homeTeam = A) (hB : r.awayTeam = B) (hAB : A ≠ B) :
    perspVal A "FTHG" "FTAG" r = r.val "FTHG" ∧
    perspVal B "FTAG" "FTHG" r = r.val "FTHG" ∧
    ("Gol fatti (FT)", "FTHG", "FTAG") ∈ statTable ∧
    ("Gol subiti (FT)", "FTAG", "FTHG") ∈ statTable := by
  refine ⟨?_, ?_, by decide, by decide⟩
  · unfold perspVal
    rw [if_neg (by rw [hB]; exact Ne.symm hAB), if_pos hA]
  · unfold perspVal
    rw [if_pos hB]

/-- Witness for C9 at a concrete row. -/
def w9Row : Row :=
  ⟨"A", "B", none, [("FTHG", some 2), ("FTAG", some 1)], none⟩

theorem C9_perspective_symmetry_witness :
    w9Row.homeTeam = "A" ∧ w9Row.awayTeam = "B" ∧ "A" ≠ "B" ∧
    (perspVal "A" "FTHG" "FTAG" w9Row = w9Row.val "FTHG" ∧
     perspVal "B" "FTAG" "FTHG" w9Row = w9Row.val "FTHG" ∧
     ("Gol fatti (FT)", "FTHG", "FTAG") ∈ statTable ∧
     ("Gol subiti (FT)", "FTAG", "FTHG") ∈ statTable) :=
  ⟨by decide, by decide, by decide,
    C9_perspective_symmetry w9Row "A" "B" (by decide) (by decide) (by decide)⟩

/-- Claim C10: on a self-match row (HomeTeam = AwayTeam = team) the two
branches of the engine disagree: the symmetric-stat projection takes the
away column (the away-mask assignment of src/app.py line 128 overwrites the
home-mask assignment of line 127), while the result labeling takes the home
branch of line 151; and such a row passes the filter, it is not dropped. -/
theorem C10_self_match (d : Dataset) (team : String) (r : Row)
    (hh : r.homeTeam = team) (ha : r.awayTeam = team) :
    (∀ hcol acol : String, perspVal team hcol acol r = r.val acol) ∧
    outcome team r =
      (if r.ftr = some "H" then "W"
       else if r.ftr = some "A" then "L" else "D") ∧
    (r ∈ d.rows → r ∈ team_matches d team) := by
  refine ⟨?_, ?_, ?_⟩
  · intro hcol acol
    unfold perspVal
    rw [if_pos ha]
  · unfold outcome
    rw [if_pos hh]
  · intro hmem
    unfold team_matches
    rw [List.mem_filter]
    exact ⟨hmem, by simp [hh]⟩

/-- Witness for C10: a self-match row with FTR = A; the outcome is L (home
branch) even though the team also is the away team, and the perspective
value is the away cell. -/
def w10Row : Row :=
  ⟨"A", "A", none, [("FTHG", some 3), ("FTAG", some 1)], some "A"⟩

def w10D : Dataset := ⟨["HomeTeam", "AwayTeam", "FTR"], [w10Row]⟩

theorem C10_self_match_witness :
    w10Row.homeTeam = "A" ∧ w10Row.awayTeam = "A" ∧
    ((∀ hcol acol : String, perspVal "A" hcol acol w10Row = w10Row.val acol) ∧
     outcome "A" w10Row =
       (if w10Row.ftr = some "H" then "W"
        else if w10Row.ftr = some "A" then "L" else "D") ∧
     (w10Row ∈ w10D.rows → w10Row ∈ team_matches w10D "A")) :=
  ⟨by decide, by decide, C10_self_match w10D "A" w10Row (by decide) (by decide)⟩

end FlashBet
